import Mathlib

/-
Shallow embedding of the diabetes-prediction service core:
`src/model_service.py` (ModelService._preprocess_input, ModelService.predict)
and `src/main.py` (predict_diabetes, predict_diabetes_batch, error-to-HTTP
status mapping).  Numeric cell values are modelled as rationals; a DataFrame
row is a finite map from column names to cell values.
-/

namespace DiabetesAPI

/-- A cell of the one-row DataFrame built from the patient dict: either a raw
string (categorical column before encoding) or a number. -/
inductive Value where
  | str (s : String)
  | num (q : ℚ)
deriving DecidableEq, Repr

/-- Results of fallible service steps are compared in witnesses, so equality
of `Except` results must be decidable. -/
instance {ε α : Type} [DecidableEq ε] [DecidableEq α] :
    DecidableEq (Except ε α) := fun x y =>
  match x, y with
  | .ok a, .ok b =>
      if h : a = b then .isTrue (by rw [h])
      else .isFalse (fun hc => h (Except.ok.inj hc))
  | .error a, .error b =>
      if h : a = b then .isTrue (by rw [h])
      else .isFalse (fun hc => h (Except.error.inj hc))
  | .ok _, .error _ => .isFalse (fun hc => Except.noConfusion hc)
  | .error _, .ok _ => .isFalse (fun hc => Except.noConfusion hc)

/-- A fitted sklearn LabelEncoder: its ordered `classes` array. -/
structure LabelEncoder where
  classes : List String
deriving DecidableEq, Repr

/-- `encoder.transform([v])` for a known class: the index of `v` in the
classes array. -/
def LabelEncoder.transform (e : LabelEncoder) (s : String) : ℚ :=
  (e.classes.indexOf s : ℕ)

/-- The membership test `df[col].iloc[0] in encoder.classes_`: a string cell
is compared against each class; a numeric cell never equals a string. -/
def Value.inClasses (v : Value) (e : LabelEncoder) : Bool :=
  match v with
  | .str s => e.classes.contains s
  | .num _ => false

/-- Errors raised by the service core, by Python exception class:
`unknownCategory` is the ValueError raised in `_preprocess_input` (its
message carries the column, the offending value and the allowed classes);
`numericConversion` and `scalerDimMismatch` are the ValueErrors sklearn
raises inside `scaler.transform`; `indexError` is numpy's IndexError from
column selection; `modelNotLoaded` is the RuntimeError raised in `predict`. -/
inductive PredictError where
  | unknownCategory (col : String) (value : Value) (allowed : List String)
  | numericConversion
  | scalerDimMismatch
  | indexError
  | modelNotLoaded
deriving DecidableEq, Repr

/-- Which of the errors are instances of Python's ValueError (the class the
request handlers catch first). -/
def PredictError.isValueError : PredictError → Bool
  | .unknownCategory _ _ _ => true
  | .numericConversion => true
  | .scalerDimMismatch => true
  | .indexError => false
  | .modelNotLoaded => false

/-- The `except ValueError → 400 / except Exception → 500` mapping of both
request handlers in `main.py`. -/
def httpStatus (e : PredictError) : ℕ :=
  if e.isValueError then 400 else 500

/-- The validated request body: exactly the eight fields of
`DiabetesPredictionRequest`. -/
structure PatientRecord where
  gender : String
  age : ℚ
  hypertension : ℚ
  heart_disease : ℚ
  smoking_history : String
  bmi : ℚ
  HbA1c_level : ℚ
  blood_glucose_level : ℚ
deriving DecidableEq, Repr

/-- The canonical training-time feature order hard-coded in
`_preprocess_input`. -/
def featureOrder : List String :=
  ["gender", "age", "hypertension", "heart_disease",
   "smoking_history", "bmi", "HbA1c_level", "blood_glucose_level"]

/-- The one-row DataFrame built from the patient dict, as a map from the
eight column names to cells. -/
def patientCells (p : PatientRecord) : String → Value := fun c =>
  if c = "gender" then .str p.gender
  else if c = "age" then .num p.age
  else if c = "hypertension" then .num p.hypertension
  else if c = "heart_disease" then .num p.heart_disease
  else if c = "smoking_history" then .str p.smoking_history
  else if c = "bmi" then .num p.bmi
  else if c = "HbA1c_level" then .num p.HbA1c_level
  else if c = "blood_glucose_level" then .num p.blood_glucose_level
  else .num 0

/-- Overwrite one column of the row (the assignment
`df[col] = encoder.transform(...)`). -/
def updateCell (cells : String → Value) (c : String) (v : Value) :
    String → Value :=
  fun c2 => if c2 = c then v else cells c2

/-- The encoding loop over `self.label_encoders.items()`: for each encoder
whose column is among the DataFrame's columns, replace a known class by its
code and raise ValueError on an unknown value. -/
def encodeCols : List (String × LabelEncoder) → (String → Value) →
    Except PredictError (String → Value)
  | [], cells => .ok cells
  | (col, enc) :: rest, cells =>
      if col ∈ featureOrder then
        let v := cells col
        if v.inClasses enc then
          match v with
          | .str s => encodeCols rest (updateCell cells col (.num (enc.transform s)))
          | .num q => encodeCols rest (updateCell cells col (.num q))
        else
          .error (.unknownCategory col v enc.classes)
      else
        encodeCols rest cells

/-- A fitted StandardScaler: per-column mean and scale arrays. -/
structure Scaler where
  mean : List ℚ
  scale : List ℚ
deriving DecidableEq, Repr

/-- A cell convertible to float; a leftover string cell makes sklearn's
input-array conversion raise ValueError. -/
def Value.toNum? : Value → Option ℚ
  | .str _ => none
  | .num q => some q

/-- Column-wise `(x - mean) / scale`. -/
def affineCols : List ℚ → List ℚ → List ℚ → List Value
  | x :: xs, m :: ms, s :: ss => .num ((x - m) / s) :: affineCols xs ms ss
  | _, _, _ => []

/-- `scaler.transform(features_array)`: converts the row to floats, checks
the column count against the fitted width, and applies the per-column
affine transform. -/
def Scaler.transformRow (s : Scaler) (row : List Value) :
    Except PredictError (List Value) :=
  match row.mapM Value.toNum? with
  | none => .error .numericConversion
  | some nums =>
      if s.mean.length = nums.length ∧ s.scale.length = nums.length then
        .ok (affineCols nums s.mean s.scale)
      else
        .error .scalerDimMismatch

/-- The `if self.scaler:` step: scale when a scaler is loaded, otherwise
pass the row through unchanged. -/
def applyScaler : Option Scaler → List Value → Except PredictError (List Value)
  | none, row => .ok row
  | some s, row => s.transformRow row

/-- numpy indexing of one column of a single-row array, with numpy's
negative-index convention; out of range raises IndexError (`none`). -/
def npIndex (row : List Value) (i : ℤ) : Option Value :=
  let j := if i < 0 then i + row.length else i
  if 0 ≤ j ∧ j < row.length then row.get? j.toNat else none

/-- The fallback path's collected columns: names not in `featureOrder` are
skipped; each kept name contributes column `feature_order.index(name)`. -/
def selectByNamesCols (names : List String) (row : List Value) :
    Option (List Value) :=
  (names.filter (fun n => decide (n ∈ featureOrder))).mapM
    (fun n => row.get? (featureOrder.indexOf n))

/-- The feature-selection step: explicit indices when present, else the
name-based fallback (passing the row through when it collects nothing),
else the row unchanged. -/
def selectFeatures (featureIndices : Option (List ℤ))
    (selectedFeatures : Option (List String)) (row : List Value) :
    Except PredictError (List Value) :=
  match featureIndices with
  | some idxs =>
      match idxs.mapM (npIndex row) with
      | some cols => .ok cols
      | none => .error .indexError
  | none =>
      match selectedFeatures with
      | some names =>
          match selectByNamesCols names row with
          | some cols => if cols.isEmpty then .ok row else .ok cols
          | none => .error .indexError
      | none => .ok row

/-- The loaded classifier: `predict` always, `predict_proba` only when the
concrete model class has it (the `hasattr` check); for a binary classifier
`predict_proba` returns the pair of class scores `[p0, p1]`. -/
structure Classifier where
  predictLabel : List Value → ℤ
  predictProba : Option (List Value → ℚ × ℚ)

/-- The ModelService state after `_load_model`: each preprocessing artifact
independently optional; absent or empty `label_encoders` both skip the
encoding loop, so both are the empty list. -/
structure ModelService where
  model : Option Classifier
  scaler : Option Scaler
  label_encoders : List (String × LabelEncoder)
  selected_features : Option (List String)
  feature_indices : Option (List ℤ)

/-- `ModelService._preprocess_input`: encode categoricals, reorder to the
canonical feature order, scale, select. -/
def ModelService.preprocessInput (svc : ModelService) (p : PatientRecord) :
    Except PredictError (List Value) :=
  match encodeCols svc.label_encoders (patientCells p) with
  | .error e => .error e
  | .ok cells =>
      match applyScaler svc.scaler (featureOrder.map cells) with
      | .error e => .error e
      | .ok scaled => selectFeatures svc.feature_indices svc.selected_features scaled

/-- `ModelService.predict`: requires the model, preprocesses, takes the
label from `model.predict`, and the probability from `predict_proba`'s
positive-class score when available, else from the label itself. -/
def ModelService.predict (svc : ModelService) (p : PatientRecord) :
    Except PredictError (ℤ × ℚ) :=
  match svc.model with
  | none => .error .modelNotLoaded
  | some m =>
      match svc.preprocessInput p with
      | .error e => .error e
      | .ok features =>
          match m.predictProba with
          | some f => .ok (m.predictLabel features, (f features).2)
          | none => .ok (m.predictLabel features, (m.predictLabel features : ℚ))

/-- The risk bucketing in both request handlers of `main.py`: thresholds
0.3 and 0.7. -/
def riskLevel (p : ℚ) : String :=
  if p < mkRat 3 10 then "Low"
  else if p < mkRat 7 10 then "Medium"
  else "High"

/-- `round(probability, 4)`: round to the nearest multiple of 1/10000 with
ties to even, written on the numerator and denominator so that it evaluates
by kernel reduction. -/
def round4 (q : ℚ) : ℚ :=
  let t : ℤ := q.num * 10000
  let d : ℤ := (q.den : ℤ)
  let f : ℤ := t.ediv d
  let r : ℤ := t.emod d
  let n : ℤ :=
    if 2 * r < d then f
    else if d < 2 * r then f + 1
    else if f % 2 = 0 then f else f + 1
  mkRat n 10000

/-- The response body of a single prediction. -/
structure DiabetesPredictionResponse where
  prediction : ℤ
  probability : ℚ
  risk_level : String
deriving DecidableEq, Repr

/-- The body of the `POST /predict` handler `predict_diabetes`. -/
def predictSingle (svc : ModelService) (p : PatientRecord) :
    Except PredictError DiabetesPredictionResponse :=
  match svc.predict p with
  | .error e => .error e
  | .ok (pred, prob) => .ok ⟨pred, round4 prob, riskLevel prob⟩

/-- The loop of `predict_diabetes_batch`, accumulating responses; any raise
aborts the whole request. -/
def predictBatchLoop (svc : ModelService) :
    List PatientRecord → List DiabetesPredictionResponse →
    Except PredictError (List DiabetesPredictionResponse)
  | [], acc => .ok acc.reverse
  | p :: rest, acc =>
      match svc.predict p with
      | .error e => .error e
      | .ok (pred, prob) =>
          predictBatchLoop svc rest (⟨pred, round4 prob, riskLevel prob⟩ :: acc)

/-- The body of the `POST /predict/batch` handler `predict_diabetes_batch`. -/
def predictBatch (svc : ModelService) (ps : List PatientRecord) :
    Except PredictError (List DiabetesPredictionResponse) :=
  predictBatchLoop svc ps []

/-! ### Shared concrete artifacts, used by witness theorems -/

/-- The example request body from the API schema documentation
(bmi 25.5, HbA1c 5.7, written as explicit fractions). -/
def exPatient : PatientRecord :=
  ⟨"Female", 45, 0, 0, "never", mkRat 51 2, mkRat 57 10, 140⟩

/-- The same record with an out-of-vocabulary gender. -/
def badPatient : PatientRecord :=
  ⟨"Unknown", 45, 0, 0, "never", mkRat 51 2, mkRat 57 10, 140⟩

/-- Encoders for the two categorical columns, with their documented
vocabularies. -/
def exEncoders : List (String × LabelEncoder) :=
  [("gender", ⟨["Female", "Male", "Other"]⟩),
   ("smoking_history",
    ⟨["No Info", "current", "ever", "former", "never", "not current"]⟩)]

/-- An identity-like standard scaler over the eight columns. -/
def exScaler : Scaler :=
  ⟨[0, 0, 0, 0, 0, 0, 0, 0], [1, 1, 1, 1, 1, 1, 1, 1]⟩

/-- A classifier that predicts the positive class with score 0.85. -/
def exClassifier : Classifier :=
  ⟨fun _ => 1, some (fun _ => (mkRat 3 20, mkRat 17 20))⟩

/-- A fully loaded service. -/
def exService : ModelService :=
  ⟨some exClassifier, none, exEncoders, none, none⟩

/-- The raw canonical row of `exPatient` before any encoding. -/
def exRawRow : List Value :=
  [.str "Female", .num 45, .num 0, .num 0, .str "never",
   .num (mkRat 51 2), .num (mkRat 57 10), .num 140]

/-- The row map of `exPatient` after the encoding loop ran both encoders. -/
def exCells : String → Value :=
  updateCell
    (updateCell (patientCells exPatient) "gender"
      (Value.num (LabelEncoder.transform ⟨["Female", "Male", "Other"]⟩ "Female")))
    "smoking_history"
    (Value.num (LabelEncoder.transform
      ⟨["No Info", "current", "ever", "former", "never", "not current"]⟩ "never"))

/-- The canonical row of `exPatient` after encoding with `exEncoders`. -/
def exEncodedRow : List Value :=
  [.num 0, .num 45, .num 0, .num 0, .num 4,
   .num (mkRat 51 2), .num (mkRat 57 10), .num 140]

/-- A service whose classifier failed to load. -/
def noModelService : ModelService :=
  ⟨none, none, exEncoders, none, none⟩

/-- A service with the scaler present. -/
def exScaledService : ModelService :=
  ⟨none, some exScaler, exEncoders, none, none⟩

/-- A service with an empty feature-index list and no name list. -/
def svcIdxEmpty : ModelService :=
  ⟨none, none, exEncoders, none, some []⟩

/-- A service with an empty feature-name list and no index list. -/
def svcNameEmpty : ModelService :=
  ⟨none, none, exEncoders, some [], none⟩

/-! ### Helper lemmas -/

theorem mapM_option_eq_map {α β : Type} (f : α → Option β) (g : α → β) :
    ∀ l : List α, (∀ a ∈ l, f a = some (g a)) → l.mapM f = some (l.map g)
  | [], _ => rfl
  | a :: l, h => by
      have ha := h a (List.mem_cons_self a l)
      have hl := mapM_option_eq_map f g l (fun x hx => h x (List.mem_cons_of_mem a hx))
      rw [List.mapM_cons, ha, hl]
      rfl

theorem mapM_option_length {α β : Type} (f : α → Option β) :
    ∀ (l : List α) (l2 : List β), l.mapM f = some l2 → l2.length = l.length
  | [], l2, h => by
      have h2 : some ([] : List β) = some l2 := h
      cases h2
      rfl
  | a :: l, l2, h => by
      rw [List.mapM_cons] at h
      cases hfa : f a with
      | none =>
          rw [hfa] at h
          exact absurd h (by intro hc; exact Option.noConfusion hc)
      | some b =>
          rw [hfa] at h
          cases hml : l.mapM f with
          | none =>
              rw [hml] at h
              exact absurd h (by intro hc; exact Option.noConfusion hc)
          | some l3 =>
              rw [hml] at h
              have h2 : some (b :: l3) = some l2 := h
              cases h2
              simp [mapM_option_length f l l3 hml]

theorem get?_eq_some_getD {α : Type} (d : α) :
    ∀ (l : List α) (n : ℕ), n < l.length → l.get? n = some (l.getD n d)
  | _ :: _, 0, _ => rfl
  | _ :: l, n + 1, h => by
      simpa using get?_eq_some_getD d l n (by simpa using h)
  | [], n, h => absurd h (by simp)

theorem npIndex_in_range (row : List Value) (i : ℤ) (h0 : 0 ≤ i)
    (h1 : i < (row.length : ℤ)) :
    npIndex row i = some (row.getD i.toNat (Value.num 0)) := by
  have hni : ¬i < 0 := not_lt.mpr h0
  have htn : i.toNat < row.length := by omega
  simp only [npIndex, if_neg hni, if_pos (And.intro h0 h1)]
  exact get?_eq_some_getD _ row i.toNat htn

theorem affineCols_length :
    ∀ (xs ms ss : List ℚ), ms.length = xs.length → ss.length = xs.length →
      (affineCols xs ms ss).length = xs.length
  | [], _, _, _, _ => by simp [affineCols]
  | x :: xs, ms, ss, h1, h2 => by
      cases ms with
      | nil => simp at h1
      | cons m ms =>
          cases ss with
          | nil => simp at h2
          | cons s ss =>
              simp only [affineCols, List.length_cons]
              rw [affineCols_length xs ms ss (by simpa using h1) (by simpa using h2)]

theorem affineCols_getD :
    ∀ (xs ms ss : List ℚ) (k : ℕ), k < xs.length →
      ms.length = xs.length → ss.length = xs.length →
      (affineCols xs ms ss).getD k (Value.num 0) =
        Value.num ((xs.getD k 0 - ms.getD k 0) / ss.getD k 0)
  | [], _, _, k, hk, _, _ => absurd hk (by simp)
  | x :: xs, ms, ss, k, hk, h1, h2 => by
      cases ms with
      | nil => simp at h1
      | cons m ms =>
          cases ss with
          | nil => simp at h2
          | cons s ss =>
              cases k with
              | zero => rfl
              | succ k =>
                  exact affineCols_getD xs ms ss k (by simpa using hk)
                    (by simpa using h1) (by simpa using h2)

theorem transformRow_ok_length (s : Scaler) (row out : List Value)
    (h : s.transformRow row = .ok out) : out.length = row.length := by
  unfold Scaler.transformRow at h
  cases hm : row.mapM Value.toNum? with
  | none =>
      rw [hm] at h
      exact absurd h (by intro hc; exact Except.noConfusion hc)
  | some nums =>
      rw [hm] at h
      have h2 : (if s.mean.length = nums.length ∧ s.scale.length = nums.length
          then Except.ok (ε := PredictError) (affineCols nums s.mean s.scale)
          else Except.error PredictError.scalerDimMismatch) = Except.ok out := h
      by_cases hc : s.mean.length = nums.length ∧ s.scale.length = nums.length
      · rw [if_pos hc] at h2
        cases h2
        rw [affineCols_length nums s.mean s.scale hc.1 hc.2]
        exact mapM_option_length _ row nums hm
      · rw [if_neg hc] at h2
        exact absurd h2 (by intro hx; exact Except.noConfusion hx)

theorem applyScaler_ok_length (os : Option Scaler) (row out : List Value)
    (h : applyScaler os row = .ok out) : out.length = row.length := by
  cases os with
  | none => cases h; rfl
  | some s => exact transformRow_ok_length s row out h

theorem featureOrder_length : featureOrder.length = 8 := rfl

theorem encodeCols_unknown :
    ∀ (encs : List (String × LabelEncoder)) (cells : String → Value),
      (encs.map Prod.fst).Nodup →
      ∀ (col : String) (enc : LabelEncoder), (col, enc) ∈ encs →
        col ∈ featureOrder → (cells col).inClasses enc = false →
        ∃ c e, (c, e) ∈ encs ∧ c ∈ featureOrder ∧
          (cells c).inClasses e = false ∧
          encodeCols encs cells = .error (.unknownCategory c (cells c) e.classes)
  | [], _, _, _, _, hmem, _, _ => absurd hmem (by simp)
  | (c0, e0) :: rest, cells, hnd, col, enc, hmem, hcol, hunk => by
      by_cases hc0 : c0 ∈ featureOrder
      · by_cases hk : (cells c0).inClasses e0 = false
        · refine ⟨c0, e0, List.mem_cons_self _ _, hc0, hk, ?_⟩
          simp [encodeCols, hc0, hk]
        · have hk' : (cells c0).inClasses e0 = true := by
            cases hb : (cells c0).inClasses e0
            · exact absurd hb hk
            · rfl
          have hmem' : (col, enc) ∈ rest := by
            rcases List.mem_cons.mp hmem with heq | h
            · cases heq; rw [hunk] at hk'; cases hk'
            · exact h
          have hcolne : col ≠ c0 := by
            intro he
            have : c0 ∈ rest.map Prod.fst := by
              rw [← he]
              exact List.mem_map_of_mem Prod.fst hmem'
            exact (List.nodup_cons.mp hnd).1 this
          cases hv : cells c0 with
          | str s =>
              have step : encodeCols ((c0, e0) :: rest) cells =
                  encodeCols rest (updateCell cells c0 (.num (e0.transform s))) := by
                simp only [encodeCols, if_pos hc0, hv] at hk' ⊢
                rw [hk', if_pos rfl]
              set cells2 := updateCell cells c0 (.num (e0.transform s)) with hc2
              have hsame : ∀ x, x ≠ c0 → cells2 x = cells x := by
                intro x hx
                simp [hc2, updateCell, hx]
              obtain ⟨c, e, hce, hcf, hcc, henc⟩ :=
                encodeCols_unknown rest cells2 (List.nodup_cons.mp hnd).2 col enc
                  hmem' hcol (by rw [hsame col hcolne]; exact hunk)
              have hcne : c ≠ c0 := by
                intro he
                have : c0 ∈ rest.map Prod.fst := by
                  rw [← he]
                  exact List.mem_map_of_mem Prod.fst hce
                exact (List.nodup_cons.mp hnd).1 this
              refine ⟨c, e, List.mem_cons_of_mem _ hce, hcf, ?_, ?_⟩
              · rw [← hsame c hcne]; exact hcc
              · rw [step, henc, hsame c hcne]
          | num q =>
              rw [hv] at hk'
              simp [Value.inClasses] at hk'
      · have hmem' : (col, enc) ∈ rest := by
          rcases List.mem_cons.mp hmem with heq | h
          · cases heq; exact absurd hcol hc0
          · exact h
        have step : encodeCols ((c0, e0) :: rest) cells = encodeCols rest cells := by
          simp only [encodeCols, if_neg hc0]
        obtain ⟨c, e, hce, hcf, hcc, henc⟩ :=
          encodeCols_unknown rest cells (List.nodup_cons.mp hnd).2 col enc hmem' hcol hunk
        exact ⟨c, e, List.mem_cons_of_mem _ hce, hcf, hcc, by rw [step, henc]⟩

/-! ### Claim theorems -/

/-- Claim C1: whenever some categorical column covered by the loaded encoder
mapping carries a value outside that column's known class set, preprocessing
fails with an unknown-category error that names an offending column, that
column's offending value and its full accepted class list; no default code is
substituted and no feature vector is produced. -/
theorem c1_unknown_category_rejected (svc : ModelService) (p : PatientRecord)
    (col : String) (enc : LabelEncoder)
    (hnd : (svc.label_encoders.map Prod.fst).Nodup)
    (hmem : (col, enc) ∈ svc.label_encoders)
    (hcol : col ∈ featureOrder)
    (hunk : (patientCells p col).inClasses enc = false) :
    ∃ c e, (c, e) ∈ svc.label_encoders ∧ c ∈ featureOrder ∧
      (patientCells p c).inClasses e = false ∧
      svc.preprocessInput p =
        .error (.unknownCategory c (patientCells p c) e.classes) := by
  obtain ⟨c, e, hce, hcf, hcc, henc⟩ :=
    encodeCols_unknown svc.label_encoders (patientCells p) hnd col enc hmem hcol hunk
  refine ⟨c, e, hce, hcf, hcc, ?_⟩
  unfold ModelService.preprocessInput
  rw [henc]

theorem c1_witness :
    (exService.label_encoders.map Prod.fst).Nodup ∧
    ("gender", (⟨["Female", "Male", "Other"]⟩ : LabelEncoder)) ∈
      exService.label_encoders ∧
    "gender" ∈ featureOrder ∧
    (patientCells badPatient "gender").inClasses ⟨["Female", "Male", "Other"]⟩ = false ∧
    ∃ c e, (c, e) ∈ exService.label_encoders ∧ c ∈ featureOrder ∧
      (patientCells badPatient c).inClasses e = false ∧
      exService.preprocessInput badPatient =
        .error (.unknownCategory c (patientCells badPatient c) e.classes) :=
  ⟨by decide, by decide, by decide, by decide,
    c1_unknown_category_rejected exService badPatient "gender"
      ⟨["Female", "Male", "Other"]⟩ (by decide) (by decide) (by decide) (by decide)⟩

/-- Claim C2: the risk level is Low exactly when the probability is below
0.30, Medium exactly when it is in [0.30, 0.70), High exactly when it is at
least 0.70; in particular 0.2999 maps to Low, 0.30 to Medium, 0.6999 to
Medium and 0.70 to High. -/
theorem c2_risk_buckets (p : ℚ) :
    (riskLevel p = "Low" ↔ p < 0.3) ∧
    (riskLevel p = "Medium" ↔ 0.3 ≤ p ∧ p < 0.7) ∧
    (riskLevel p = "High" ↔ 0.7 ≤ p) ∧
    riskLevel 0.2999 = "Low" ∧ riskLevel 0.3 = "Medium" ∧
    riskLevel 0.6999 = "Medium" ∧ riskLevel 0.7 = "High" := by
  have h3 : (mkRat 3 10 : ℚ) = 0.3 := by norm_num [Rat.mkRat_eq_div]
  have h7 : (mkRat 7 10 : ℚ) = 0.7 := by norm_num [Rat.mkRat_eq_div]
  refine ⟨?_, ?_, ?_, ?_, ?_, ?_, ?_⟩
  · unfold riskLevel
    rw [h3, h7]
    split_ifs with h1 h2
    · exact iff_of_true rfl h1
    · exact iff_of_false (by decide) h1
    · exact iff_of_false (by decide) h1
  · unfold riskLevel
    rw [h3, h7]
    split_ifs with h1 h2
    · exact iff_of_false (by decide) (fun hx => absurd h1 (not_lt.mpr hx.1))
    · exact iff_of_true rfl ⟨not_lt.mp h1, h2⟩
    · exact iff_of_false (by decide) (fun hx => absurd hx.2 h2)
  · unfold riskLevel
    rw [h3, h7]
    split_ifs with h1 h2
    · exact iff_of_false (by decide) (fun hx => by linarith)
    · exact iff_of_false (by decide) (fun hx => absurd h2 (not_lt.mpr hx))
    · exact iff_of_true rfl (not_lt.mp h2)
  · unfold riskLevel
    rw [h3, h7, if_pos (by norm_num)]
  · unfold riskLevel
    rw [h3, h7, if_neg (by norm_num), if_pos (by norm_num)]
  · unfold riskLevel
    rw [h3, h7, if_neg (by norm_num), if_pos (by norm_num)]
  · unfold riskLevel
    rw [h3, h7, if_neg (by norm_num), if_neg (by norm_num)]

/-- Claim C3: when an explicit feature-index list is present, exactly those
column positions are taken from the row in index order regardless of any
name list; the name path runs only when the index list is absent; with
neither present the row passes through unchanged. -/
theorem c3_selection_dispatch (fi : Option (List ℤ)) (sf : Option (List String))
    (row : List Value) :
    (∀ idxs, fi = some idxs → (∀ i ∈ idxs, 0 ≤ i ∧ i < (row.length : ℤ)) →
      selectFeatures fi sf row =
        .ok (idxs.map (fun i => row.getD i.toNat (Value.num 0)))) ∧
    (∀ names, fi = none → sf = some names →
      selectFeatures fi sf row = selectFeatures none (some names) row) ∧
    (fi = none → sf = none → selectFeatures fi sf row = .ok row) := by
  refine ⟨?_, ?_, ?_⟩
  · intro idxs hfi hrange
    subst hfi
    have hmm := mapM_option_eq_map (npIndex row)
      (fun i => row.getD i.toNat (Value.num 0)) idxs
      (fun i hi => npIndex_in_range row i (hrange i hi).1 (hrange i hi).2)
    show (match idxs.mapM (npIndex row) with
      | some cols => Except.ok cols
      | none => (Except.error PredictError.indexError : Except PredictError (List Value))) =
      Except.ok (idxs.map (fun i => row.getD i.toNat (Value.num 0)))
    rw [hmm]
  · intro names hfi hsf
    subst hfi
    subst hsf
    rfl
  · intro hfi hsf
    subst hfi
    subst hsf
    rfl

theorem c3_witness :
    (∀ i ∈ ([7, 0] : List ℤ), 0 ≤ i ∧ i < (exRawRow.length : ℤ)) ∧
    selectFeatures (some [7, 0]) (some ["age"]) exRawRow =
      .ok [Value.num 140, Value.str "Female"] :=
  ⟨by decide,
    (c3_selection_dispatch (some [7, 0]) (some ["age"]) exRawRow).1 [7, 0] rfl (by decide)⟩

/-- Claim C8: with no classifier loaded, predict fails with the
model-not-loaded error, and the request boundary maps that error to a
500-class outcome, not a 400-class one. -/
theorem c8_model_not_loaded (svc : ModelService) (p : PatientRecord)
    (h : svc.model = none) :
    svc.predict p = .error .modelNotLoaded ∧
    predictSingle svc p = .error .modelNotLoaded ∧
    httpStatus .modelNotLoaded = 500 ∧ httpStatus .modelNotLoaded ≠ 400 := by
  have h1 : svc.predict p = .error .modelNotLoaded := by
    unfold ModelService.predict
    rw [h]
  refine ⟨h1, ?_, by decide, by decide⟩
  unfold predictSingle
  rw [h1]

theorem c8_witness :
    noModelService.model = none ∧
    noModelService.predict exPatient = .error .modelNotLoaded ∧
    httpStatus .modelNotLoaded = 500 :=
  ⟨rfl, (c8_model_not_loaded noModelService exPatient rfl).1,
    (c8_model_not_loaded noModelService exPatient rfl).2.2.1⟩

/-- Claim C9: in the name-based fallback, names absent from the canonical
order are skipped without error, the output has one column per matching name,
and when no name matches the full row is returned unchanged. -/
theorem c9_name_fallback_skips (names : List String) (row : List Value)
    (hlen : row.length = featureOrder.length) :
    (names.filter (fun n => decide (n ∈ featureOrder)) = [] →
      selectFeatures none (some names) row = .ok row) ∧
    (names.filter (fun n => decide (n ∈ featureOrder)) ≠ [] →
      selectFeatures none (some names) row =
        .ok ((names.filter (fun n => decide (n ∈ featureOrder))).map
          (fun n => row.getD (featureOrder.indexOf n) (Value.num 0)))) := by
  have key : selectByNamesCols names row =
      some ((names.filter (fun n => decide (n ∈ featureOrder))).map
        (fun n => row.getD (featureOrder.indexOf n) (Value.num 0))) := by
    unfold selectByNamesCols
    apply mapM_option_eq_map
    intro n hn
    have hmem : n ∈ featureOrder := of_decide_eq_true (List.mem_filter.mp hn).2
    have hidx : featureOrder.indexOf n < row.length := by
      rw [hlen]
      exact List.indexOf_lt_length.mpr hmem
    exact get?_eq_some_getD _ row _ hidx
  constructor
  · intro hF
    show (match selectByNamesCols names row with
      | some cols => if cols.isEmpty then Except.ok row else Except.ok cols
      | none => (Except.error PredictError.indexError : Except PredictError (List Value))) =
      Except.ok row
    rw [key, hF]
    rfl
  · intro hF
    show (match selectByNamesCols names row with
      | some cols => if cols.isEmpty then Except.ok row else Except.ok cols
      | none => (Except.error PredictError.indexError : Except PredictError (List Value))) =
      Except.ok ((names.filter (fun n => decide (n ∈ featureOrder))).map
        (fun n => row.getD (featureOrder.indexOf n) (Value.num 0)))
    rw [key]
    cases hFc : names.filter (fun n => decide (n ∈ featureOrder)) with
    | nil => exact absurd hFc hF
    | cons m ms => rfl

theorem c9_witness :
    exRawRow.length = featureOrder.length ∧
    selectFeatures none (some ["bmi", "banana", "age"]) exRawRow =
      .ok [Value.num (mkRat 51 2), Value.num 45] ∧
    selectFeatures none (some ["banana"]) exRawRow = .ok exRawRow :=
  ⟨rfl,
    (c9_name_fallback_skips ["bmi", "banana", "age"] exRawRow rfl).2 (by decide),
    (c9_name_fallback_skips ["banana"] exRawRow rfl).1 (by decide)⟩

/-! ### Batch and scaler helper lemmas -/

theorem mapM_toNum_map_num :
    ∀ nums : List ℚ, (nums.map Value.num).mapM Value.toNum? = some nums
  | [] => rfl
  | q :: nums => by
      rw [List.map_cons, List.mapM_cons, mapM_toNum_map_num nums]
      rfl

theorem mapM_except_length {ε α β : Type} (f : α → Except ε β) :
    ∀ (l : List α) (l2 : List β), l.mapM f = .ok l2 → l2.length = l.length
  | [], l2, h => by
      have h2 : Except.ok (ε := ε) ([] : List β) = Except.ok l2 := h
      cases h2
      rfl
  | a :: l, l2, h => by
      rw [List.mapM_cons] at h
      cases hfa : f a with
      | error e =>
          rw [hfa] at h
          exact absurd h (by intro hc; exact Except.noConfusion hc)
      | ok b =>
          rw [hfa] at h
          cases hml : l.mapM f with
          | error e =>
              rw [hml] at h
              exact absurd h (by intro hc; exact Except.noConfusion hc)
          | ok l3 =>
              rw [hml] at h
              have h2 : Except.ok (ε := ε) (b :: l3) = Except.ok l2 := h
              cases h2
              simp [mapM_except_length f l l3 hml]

theorem mapM_except_error_at {ε α β : Type} (f : α → Except ε β) (e : ε) :
    ∀ (l1 : List α) (a : α) (l2 : List α),
      (∀ x ∈ l1, ∃ r, f x = .ok r) → f a = .error e →
      (l1 ++ a :: l2).mapM f = .error e
  | [], a, l2, _, hfa => by
      rw [List.nil_append, List.mapM_cons, hfa]
      rfl
  | x :: l1, a, l2, hok, hfa => by
      obtain ⟨r, hr⟩ := hok x (List.mem_cons_self x l1)
      rw [List.cons_append, List.mapM_cons, hr,
        mapM_except_error_at f e l1 a l2
          (fun y hy => hok y (List.mem_cons_of_mem x hy)) hfa]
      rfl

theorem predictBatchLoop_eq (svc : ModelService) :
    ∀ (ps : List PatientRecord) (acc : List DiabetesPredictionResponse),
      predictBatchLoop svc ps acc =
        match ps.mapM (predictSingle svc) with
        | .error e => .error e
        | .ok rs => .ok (acc.reverse ++ rs)
  | [], acc => by
      show Except.ok acc.reverse = _
      rw [List.mapM_nil]
      show _ = Except.ok (acc.reverse ++ [])
      rw [List.append_nil]
  | p :: ps, acc => by
      rw [List.mapM_cons]
      cases hp : svc.predict p with
      | error e =>
          have hps : predictSingle svc p = Except.error e := by
            unfold predictSingle
            rw [hp]
          have hstep : predictBatchLoop svc (p :: ps) acc = Except.error e := by
            unfold predictBatchLoop
            rw [hp]
          rw [hstep, hps]
          rfl
      | ok pr =>
          obtain ⟨pred, prob⟩ := pr
          have hps : predictSingle svc p =
              Except.ok ⟨pred, round4 prob, riskLevel prob⟩ := by
            unfold predictSingle
            rw [hp]
          have hstep : predictBatchLoop svc (p :: ps) acc =
              predictBatchLoop svc ps (⟨pred, round4 prob, riskLevel prob⟩ :: acc) := by
            conv_lhs => unfold predictBatchLoop
            rw [hp]
          rw [hstep, hps, predictBatchLoop_eq svc ps
            (⟨pred, round4 prob, riskLevel prob⟩ :: acc)]
          cases hm : ps.mapM (predictSingle svc) with
          | error e => rfl
          | ok rs =>
              show Except.ok ((⟨pred, round4 prob, riskLevel prob⟩ :: acc).reverse ++ rs) =
                Except.ok (acc.reverse ++ ⟨pred, round4 prob, riskLevel prob⟩ :: rs)
              rw [List.reverse_cons, List.append_assoc]
              rfl

/-! ### Remaining claim theorems -/

/-- Claim C4 (counterexample): the empty index list and the empty name list
describe the same (empty) subset of columns in the same order, yet the
index path yields an empty vector while the name path falls back to the
full scaled row, so the outputs differ. -/
theorem c4_counterexample :
    (([] : List ℤ) = ([] : List String).map (fun n => (featureOrder.indexOf n : ℤ))) ∧
    svcIdxEmpty.preprocessInput exPatient = Except.ok [] ∧
    svcNameEmpty.preprocessInput exPatient = Except.ok exEncodedRow ∧
    (Except.ok ([] : List Value) : Except PredictError (List Value)) ≠
      Except.ok exEncodedRow :=
  ⟨rfl, by decide, by decide, by decide⟩

/-- Claim C4 (amended): when the common subset is nonempty — an index list
obtained by resolving each of a nonempty list of canonical feature names —
preprocessing with only the index list and preprocessing with only the name
list produce identical outputs. -/
theorem c4_index_name_consistency (model : Option Classifier)
    (scaler : Option Scaler) (encs : List (String × LabelEncoder))
    (p : PatientRecord) (names : List String)
    (hmem : ∀ n ∈ names, n ∈ featureOrder) (hne : names ≠ []) :
    ModelService.preprocessInput
      ⟨model, scaler, encs, none,
        some (names.map (fun n => (featureOrder.indexOf n : ℤ)))⟩ p =
    ModelService.preprocessInput ⟨model, scaler, encs, some names, none⟩ p := by
  have e1 : ModelService.preprocessInput
      ⟨model, scaler, encs, none,
        some (names.map (fun n => (featureOrder.indexOf n : ℤ)))⟩ p =
      (match encodeCols encs (patientCells p) with
      | .error e => .error e
      | .ok cells =>
          match applyScaler scaler (featureOrder.map cells) with
          | .error e => .error e
          | .ok scaled =>
              selectFeatures
                (some (names.map (fun n => (featureOrder.indexOf n : ℤ))))
                none scaled) := rfl
  have e2 : ModelService.preprocessInput ⟨model, scaler, encs, some names, none⟩ p =
      (match encodeCols encs (patientCells p) with
      | .error e => .error e
      | .ok cells =>
          match applyScaler scaler (featureOrder.map cells) with
          | .error e => .error e
          | .ok scaled => selectFeatures none (some names) scaled) := rfl
  rw [e1, e2]
  cases henc : encodeCols encs (patientCells p) with
  | error e => rfl
  | ok cells =>
      show (match applyScaler scaler (featureOrder.map cells) with
        | .error e => (Except.error e : Except PredictError (List Value))
        | .ok scaled =>
            selectFeatures
              (some (names.map (fun n => (featureOrder.indexOf n : ℤ))))
              none scaled) =
        (match applyScaler scaler (featureOrder.map cells) with
        | .error e => .error e
        | .ok scaled => selectFeatures none (some names) scaled)
      cases hsc : applyScaler scaler (featureOrder.map cells) with
      | error e => rfl
      | ok scaled =>
          have hlen : scaled.length = 8 := by
            rw [applyScaler_ok_length scaler _ scaled hsc]
            simp [featureOrder]
          have hidx : ∀ i ∈ names.map (fun n => (featureOrder.indexOf n : ℤ)),
              0 ≤ i ∧ i < (scaled.length : ℤ) := by
            intro i hi
            obtain ⟨n, hn, rfl⟩ := List.mem_map.mp hi
            have h8 : featureOrder.indexOf n < 8 :=
              featureOrder_length ▸ List.indexOf_lt_length.mpr (hmem n hn)
            refine ⟨Int.natCast_nonneg _, ?_⟩
            rw [hlen]
            exact_mod_cast h8
          have hL : selectFeatures
              (some (names.map (fun n => (featureOrder.indexOf n : ℤ)))) none scaled =
              .ok ((names.map (fun n => (featureOrder.indexOf n : ℤ))).map
                (fun i => scaled.getD i.toNat (Value.num 0))) := by
            have hmm := mapM_option_eq_map (npIndex scaled)
              (fun i => scaled.getD i.toNat (Value.num 0))
              (names.map (fun n => (featureOrder.indexOf n : ℤ)))
              (fun i hi => npIndex_in_range scaled i (hidx i hi).1 (hidx i hi).2)
            show (match (names.map (fun n => (featureOrder.indexOf n : ℤ))).mapM
                (npIndex scaled) with
              | some cols => Except.ok cols
              | none =>
                  (Except.error PredictError.indexError :
                    Except PredictError (List Value))) = _
            rw [hmm]
          have hR : selectFeatures none (some names) scaled =
              .ok (names.map (fun n =>
                scaled.getD (featureOrder.indexOf n) (Value.num 0))) := by
            have hfilter : names.filter (fun n => decide (n ∈ featureOrder)) = names :=
              List.filter_eq_self.mpr (fun a ha => decide_eq_true (hmem a ha))
            have hcols : selectByNamesCols names scaled =
                some (names.map (fun n =>
                  scaled.getD (featureOrder.indexOf n) (Value.num 0))) := by
              unfold selectByNamesCols
              rw [hfilter]
              refine mapM_option_eq_map _ _ names (fun n hn => ?_)
              refine get?_eq_some_getD _ scaled _ ?_
              rw [hlen]
              exact featureOrder_length ▸ List.indexOf_lt_length.mpr (hmem n hn)
            show (match selectByNamesCols names scaled with
              | some cols => if cols.isEmpty then Except.ok scaled else Except.ok cols
              | none =>
                  (Except.error PredictError.indexError :
                    Except PredictError (List Value))) = _
            rw [hcols]
            cases names with
            | nil => exact absurd rfl hne
            | cons a l => rfl
          show selectFeatures
              (some (names.map (fun n => (featureOrder.indexOf n : ℤ)))) none scaled =
            selectFeatures none (some names) scaled
          rw [hL, hR, List.map_map]
          simp [Function.comp_def]

theorem c4_witness :
    (∀ n ∈ ["bmi", "age"], n ∈ featureOrder) ∧
    (["bmi", "age"] ≠ ([] : List String)) ∧
    ModelService.preprocessInput
      ⟨none, none, exEncoders, none,
        some (["bmi", "age"].map (fun n => (featureOrder.indexOf n : ℤ)))⟩ exPatient =
    ModelService.preprocessInput
      ⟨none, none, exEncoders, some ["bmi", "age"], none⟩ exPatient :=
  ⟨by decide, by decide,
    c4_index_name_consistency none none exEncoders exPatient ["bmi", "age"]
      (by decide) (by decide)⟩

/-- Claim C5: batch prediction is exactly the sequential composition of
single predictions, record by record in input order; when every record
succeeds the batch returns the list of the per-record results, one per
input. -/
theorem c5_batch_refines_single (svc : ModelService) (ps : List PatientRecord) :
    predictBatch svc ps = ps.mapM (predictSingle svc) ∧
    ∀ rs, ps.mapM (predictSingle svc) = Except.ok rs →
      predictBatch svc ps = Except.ok rs ∧ rs.length = ps.length := by
  have hb : predictBatch svc ps = ps.mapM (predictSingle svc) := by
    unfold predictBatch
    rw [predictBatchLoop_eq svc ps []]
    cases ps.mapM (predictSingle svc) with
    | error e => rfl
    | ok rs =>
        show Except.ok (List.reverse [] ++ rs) = _
        rw [List.reverse_nil, List.nil_append]
  refine ⟨hb, fun rs hrs => ⟨hb.trans hrs, mapM_except_length _ ps rs hrs⟩⟩

theorem c5_witness :
    [exPatient, exPatient].mapM (predictSingle exService) =
      Except.ok [⟨1, mkRat 17 20, "High"⟩, ⟨1, mkRat 17 20, "High"⟩] ∧
    predictBatch exService [exPatient, exPatient] =
      Except.ok [⟨1, mkRat 17 20, "High"⟩, ⟨1, mkRat 17 20, "High"⟩] ∧
    ([⟨1, mkRat 17 20, "High"⟩, ⟨1, mkRat 17 20, "High"⟩] :
      List DiabetesPredictionResponse).length = 2 :=
  ⟨by decide,
    ((c5_batch_refines_single exService [exPatient, exPatient]).2
      [⟨1, mkRat 17 20, "High"⟩, ⟨1, mkRat 17 20, "High"⟩] (by decide)).1,
    ((c5_batch_refines_single exService [exPatient, exPatient]).2
      [⟨1, mkRat 17 20, "High"⟩, ⟨1, mkRat 17 20, "High"⟩] (by decide)).2⟩

/-- Claim C6: after a successful encoding, preprocessing is exactly the
scaling of the canonical-order row followed by feature selection; an absent
scaler passes the row through unchanged, and a present scaler applies the
per-column transform (x - mean) / scale across the full row. -/
theorem c6_pipeline_order (svc : ModelService) (p : PatientRecord)
    (cells : String → Value)
    (henc : encodeCols svc.label_encoders (patientCells p) = .ok cells) :
    (svc.preprocessInput p =
      match applyScaler svc.scaler (featureOrder.map cells) with
      | .error e => .error e
      | .ok scaled =>
          selectFeatures svc.feature_indices svc.selected_features scaled) ∧
    (∀ row : List Value, applyScaler none row = .ok row) ∧
    (∀ (s : Scaler) (nums : List ℚ), s.mean.length = nums.length →
      s.scale.length = nums.length →
      ∃ out, Scaler.transformRow s (nums.map Value.num) = .ok out ∧
        out.length = nums.length ∧
        ∀ k, k < nums.length →
          out.getD k (Value.num 0) =
            Value.num ((nums.getD k 0 - s.mean.getD k 0) / s.scale.getD k 0)) := by
  refine ⟨?_, fun _ => rfl, ?_⟩
  · unfold ModelService.preprocessInput
    rw [henc]
  · intro s nums h1 h2
    have htr : Scaler.transformRow s (nums.map Value.num) =
        .ok (affineCols nums s.mean s.scale) := by
      unfold Scaler.transformRow
      rw [mapM_toNum_map_num nums]
      exact if_pos ⟨h1, h2⟩
    exact ⟨affineCols nums s.mean s.scale, htr,
      affineCols_length nums s.mean s.scale h1 h2,
      fun k hk => affineCols_getD nums s.mean s.scale k hk h1 h2⟩

theorem c6_witness :
    encodeCols exScaledService.label_encoders (patientCells exPatient) =
      .ok exCells ∧
    exScaledService.preprocessInput exPatient =
      match applyScaler exScaledService.scaler (featureOrder.map exCells) with
      | .error e => .error e
      | .ok scaled =>
          selectFeatures exScaledService.feature_indices
            exScaledService.selected_features scaled :=
  ⟨rfl, (c6_pipeline_order exScaledService exPatient exCells rfl).1⟩

/-- Claim C7: with a loaded classifier, the reported probability is the
positive-class score of `predict_proba` when that capability exists, and
otherwise the numeric label itself, with no failure. -/
theorem c7_probability_source (svc : ModelService) (p : PatientRecord)
    (m : Classifier) (feats : List Value)
    (hm : svc.model = some m) (hpre : svc.preprocessInput p = .ok feats) :
    (∀ f, m.predictProba = some f →
      svc.predict p = .ok (m.predictLabel feats, (f feats).2)) ∧
    (m.predictProba = none →
      svc.predict p = .ok (m.predictLabel feats, (m.predictLabel feats : ℚ))) := by
  constructor
  · intro f hf
    unfold ModelService.predict
    rw [hm]
    simp only [hpre, hf]
  · intro hf
    unfold ModelService.predict
    rw [hm]
    simp only [hpre, hf]

theorem c7_witness :
    exService.model = some exClassifier ∧
    exService.preprocessInput exPatient = Except.ok exEncodedRow ∧
    exClassifier.predictProba = some (fun _ => (mkRat 3 20, mkRat 17 20)) ∧
    exService.predict exPatient = Except.ok (1, mkRat 17 20) :=
  ⟨rfl, by decide, rfl,
    (c7_probability_source exService exPatient exClassifier exEncodedRow rfl
      (by decide)).1 (fun _ => (mkRat 3 20, mkRat 17 20)) rfl⟩

/-- Claim C10: if any record of a batch fails, the whole batch request
fails with that error: no predictions are returned, not even for records
earlier in the list that had succeeded. -/
theorem c10_batch_all_or_nothing (svc : ModelService)
    (ps1 ps2 : List PatientRecord) (p : PatientRecord) (e : PredictError)
    (hok : ∀ q ∈ ps1, ∃ r, predictSingle svc q = .ok r)
    (hfail : predictSingle svc p = .error e) :
    predictBatch svc (ps1 ++ p :: ps2) = .error e := by
  unfold predictBatch
  rw [predictBatchLoop_eq svc _ [],
    mapM_except_error_at (predictSingle svc) e ps1 p ps2 hok hfail]

theorem c10_witness :
    (∀ q ∈ [exPatient], ∃ r, predictSingle exService q = Except.ok r) ∧
    predictSingle exService badPatient =
      Except.error (.unknownCategory "gender" (.str "Unknown")
        ["Female", "Male", "Other"]) ∧
    predictBatch exService [exPatient, badPatient, exPatient] =
      Except.error (.unknownCategory "gender" (.str "Unknown")
        ["Female", "Male", "Other"]) := by
  refine ⟨?_, by decide, ?_⟩
  · intro q hq
    rw [List.mem_singleton] at hq
    subst hq
    exact ⟨⟨1, mkRat 17 20, "High"⟩, by decide⟩
  · exact c10_batch_all_or_nothing exService [exPatient] [exPatient] badPatient
      (.unknownCategory "gender" (.str "Unknown") ["Female", "Male", "Other"])
      (fun q hq => by
        rw [List.mem_singleton] at hq
        subst hq
        exact ⟨⟨1, mkRat 17 20, "High"⟩, by decide⟩)
      (by decide)

end DiabetesAPI
